import Mathlib

/-!
Verification of `bevy-event-set` (src/lib.rs), a build-time generator that,
given a name and a list of member event types, emits an aggregate struct
holding one `ResMut<Events<T>>` handle per member, one `EventSet` (Registrable)
implementation whose `apply` calls `app.add_event::<T>()` for each member in
order, and one `SendEvent<T>` (Dispatchable) implementation per member
forwarding a value to that member's channel.

The generator is embedded in two stages mirroring the build: `expand` is the
textual expansion of the `event_set!` definition in src/lib.rs (the empty arm
signals `compile_error!("cannot make an empty event set")`; the general arm
emits the struct, the single `EventSet` impl and one `SendEvent` impl per
member), and `typeCheck` models the host language's rejection of the emitted
code when two struct fields or two trait implementations coincide.

Runtime behaviour (publishing to channels, registering event types on the
application builder) is modelled by explicit state passing over `World` and
`AppBuilder`; the host-owned operations (`Events::send`, `add_event`) are
modelled from the spec, as noted on each definition.
-/

set_option autoImplicit false

namespace BevyEventSet

/-- A compile-time event-type identifier (the `$event` idents of the input). -/
abbrev EventId := String

/-- One field of the emitted aggregate struct:
`$event: bevy::ecs::ResMut<'a, bevy::app::Events<$event>>`.
`fieldName` is the field's identifier and `channelOf` the event type `T` of the
`Events<T>` channel the field's handle points at. -/
structure FieldDecl where
  fieldName : EventId
  channelOf : EventId
deriving DecidableEq, Repr

/-- One emitted `SendEvent<$event>` implementation: its body is
`self.$event.send(event)`, so it is described by the event type it accepts and
the field of `self` it forwards to. -/
structure SendImpl where
  eventType : EventId
  targetField : EventId
deriving DecidableEq, Repr

/-- The code items emitted by one `event_set!(name { members })` invocation:
the struct's name and fields, the bodies of the emitted `EventSet`
implementations (each body a list of `add_event::<T>()` calls in source
order), and the emitted `SendEvent` implementations. -/
structure EmittedCode where
  structName : String
  structFields : List FieldDecl
  eventSetImpls : List (List EventId)
  sendImpls : List SendImpl
deriving DecidableEq, Repr

/-- The expansion of `event_set!` from src/lib.rs: the `($name:ident {})` arm
signals `compile_error!("cannot make an empty event set")`; the general arm
emits the struct with one field `$event: ResMut<Events<$event>>` per member,
one `EventSet` impl whose `apply` body is `app.add_event::<$event>()` per
member in order, and one `SendEvent<$event>` impl per member whose body is
`self.$event.send(event)`. -/
def expand (name : String) (members : List EventId) : Except String EmittedCode :=
  match members with
  | [] => Except.error "cannot make an empty event set"
  | _ :: _ =>
    Except.ok
      { structName := name
        structFields := members.map (fun e => { fieldName := e, channelOf := e })
        eventSetImpls := [members]
        sendImpls := members.map (fun e => { eventType := e, targetField := e }) }

/-- Modelled from the spec: the host language's type checker, which is what
actually rejects a duplicate member ("type-checker-level: manifests as a
duplicate-field or duplicate-implementation conflict"). Emitted code with two
identically named struct fields, or two `SendEvent<T>` implementations for the
same `T`, fails the build. -/
def typeCheck (c : EmittedCode) : Except String EmittedCode :=
  if (c.structFields.map FieldDecl.fieldName).Nodup then
    if (c.sendImpls.map SendImpl.eventType).Nodup then
      Except.ok c
    else
      Except.error "conflicting trait implementations"
  else
    Except.error "duplicate field"

/-- The whole generation step for one `event_set!` invocation: expansion
followed by the host type check of the emitted items. -/
def generate (name : String) (members : List EventId) : Except String EmittedCode :=
  (expand name members).bind typeCheck

/-- Runtime state visible to this crate: for each event type, the buffered
contents of its `Events<T>` channel, plus a trace recording every publish
call (`Events::send`) performed, in order, as (event type, value) pairs. -/
structure World where
  channels : EventId → List Nat
  trace : List (EventId × Nat)

/-- Modelled from the spec: the host's `Events<T>::send` / `publish(value)`
("enqueues a value for later consumption"). It appends the value to `T`'s
channel buffer, records exactly one publish call in the trace, and touches no
other channel. -/
def publish (T : EventId) (v : Nat) (w : World) : World :=
  { channels := fun U => if U = T then w.channels U ++ [v] else w.channels U
    trace := w.trace ++ [(T, v)] }

/-- The `send` operation of the generated aggregate, read off the emitted
code: calling `send` with a value of event type `T` resolves (at compile time
in the source; here by lookup) the `SendEvent<T>` implementation, whose body
`self.$event.send(event)` publishes on the channel held by the target field.
If no implementation exists for `T` the call does not compile; the model
returns the world unchanged in that unreachable case. -/
def generatedSend (c : EmittedCode) (T : EventId) (v : Nat) (w : World) : World :=
  match c.sendImpls.find? (fun si => si.eventType == T) with
  | some si =>
    match c.structFields.find? (fun f => f.fieldName == si.targetField) with
    | some f => publish f.channelOf v w
    | none => w
  | none => w

/-- The host's application-builder state visible to this crate: the ordered
trace of `add_event::<T>()` calls made on it, the registry (which event types
have an `Events<T>` resource registered, keyed by type), and the rest of the
builder's state, which this crate never touches. -/
structure AppBuilder where
  addEventCalls : List EventId
  registered : EventId → Bool
  other : Nat

/-- Modelled from the spec: the host's `AppBuilder::add_event::<T>()`
(`ChannelRegistry.register<T>()`, "idempotent" — the registry de-duplicates by
type). It records the call and marks `T` registered; it does not touch the
rest of the builder's state. -/
def add_event (T : EventId) (app : AppBuilder) : AppBuilder :=
  { addEventCalls := app.addEventCalls ++ [T]
    registered := fun U => if U = T then true else app.registered U
    other := app.other }

/-- Executes a list of `add_event` calls in order (the body of one emitted
`EventSet::apply`). -/
def registerAll (l : List EventId) (app : AppBuilder) : AppBuilder :=
  l.foldl (fun a T => add_event T a) app

/-- The `EventSet::apply` of the generated aggregate, read off the emitted
code: each emitted `EventSet` impl's body runs its `add_event` calls in
order. (Generation always emits exactly one impl.) -/
def EventSet.apply (c : EmittedCode) (app : AppBuilder) : AppBuilder :=
  c.eventSetImpls.foldl (fun a regs => registerAll regs a) app

/-- `AddEventSet::add_event_set::<E>` from src/lib.rs: `E::apply(self); self`.
The event-set type `E` enters only through its `apply` operation, so the
embedding abstracts `E` as that operation. -/
def add_event_set (applyE : AppBuilder → AppBuilder) (app : AppBuilder) : AppBuilder :=
  let app1 := applyE app
  app1

/-! ### Helper lemmas -/

theorem fields_map_fieldName (members : List EventId) :
    ((members.map fun e => ({ fieldName := e, channelOf := e } : FieldDecl)).map
      FieldDecl.fieldName) = members := by
  rw [List.map_map]
  exact List.map_id members

theorem sends_map_eventType (members : List EventId) :
    ((members.map fun e => ({ eventType := e, targetField := e } : SendImpl)).map
      SendImpl.eventType) = members := by
  rw [List.map_map]
  exact List.map_id members

theorem generate_ok_shape (name : String) (members : List EventId) (c : EmittedCode)
    (h : generate name members = Except.ok c) :
    c.structName = name ∧
    c.structFields = members.map (fun e => { fieldName := e, channelOf := e }) ∧
    c.eventSetImpls = [members] ∧
    c.sendImpls = members.map (fun e => { eventType := e, targetField := e }) ∧
    members ≠ [] ∧ members.Nodup := by
  cases members with
  | nil => exact absurd h (by simp [generate, expand, Except.bind])
  | cons m ms =>
    rw [show generate name (m :: ms)
        = typeCheck
            { structName := name
              structFields := (m :: ms).map (fun e => { fieldName := e, channelOf := e })
              eventSetImpls := [m :: ms]
              sendImpls := (m :: ms).map (fun e => { eventType := e, targetField := e }) }
      from rfl, typeCheck] at h
    split_ifs at h with h1 h2
    · rw [Except.ok.injEq] at h
      subst h
      refine ⟨rfl, rfl, rfl, rfl, by simp, ?_⟩
      rw [fields_map_fieldName] at h1
      exact h1

theorem find_sendImpl (members : List EventId) (T : EventId) (hT : T ∈ members) :
    ((members.map fun e => ({ eventType := e, targetField := e } : SendImpl)).find?
      (fun si => si.eventType == T)) = some { eventType := T, targetField := T } := by
  induction members with
  | nil => cases hT
  | cons e es ih =>
    by_cases h : e = T
    · subst h
      simp [List.find?]
    · have hmem : T ∈ es := by
        cases hT with
        | head => exact absurd rfl h
        | tail _ h2 => exact h2
      simp only [List.map_cons, List.find?]
      have : (({ eventType := e, targetField := e } : SendImpl).eventType == T) = false := by
        simpa using h
      rw [this]
      exact ih hmem

theorem find_field (members : List EventId) (T : EventId) (hT : T ∈ members) :
    ((members.map fun e => ({ fieldName := e, channelOf := e } : FieldDecl)).find?
      (fun f => f.fieldName == T)) = some { fieldName := T, channelOf := T } := by
  induction members with
  | nil => cases hT
  | cons e es ih =>
    by_cases h : e = T
    · subst h
      simp [List.find?]
    · have hmem : T ∈ es := by
        cases hT with
        | head => exact absurd rfl h
        | tail _ h2 => exact h2
      simp only [List.map_cons, List.find?]
      have : (({ fieldName := e, channelOf := e } : FieldDecl).fieldName == T) = false := by
        simpa using h
      rw [this]
      exact ih hmem

theorem registerAll_nil (app : AppBuilder) : registerAll [] app = app := rfl

theorem registerAll_cons (T : EventId) (ts : List EventId) (app : AppBuilder) :
    registerAll (T :: ts) app = registerAll ts (add_event T app) := rfl

theorem registerAll_addEventCalls (l : List EventId) (app : AppBuilder) :
    (registerAll l app).addEventCalls = app.addEventCalls ++ l := by
  induction l generalizing app with
  | nil => simp [registerAll_nil]
  | cons T ts ih =>
    rw [registerAll_cons, ih]
    simp [add_event]

theorem registerAll_other (l : List EventId) (app : AppBuilder) :
    (registerAll l app).other = app.other := by
  induction l generalizing app with
  | nil => rfl
  | cons T ts ih =>
    rw [registerAll_cons, ih]
    rfl

theorem registerAll_registered (l : List EventId) (app : AppBuilder) (U : EventId) :
    (registerAll l app).registered U = (decide (U ∈ l) || app.registered U) := by
  induction l generalizing app with
  | nil => simp [registerAll_nil]
  | cons T ts ih =>
    rw [registerAll_cons, ih]
    by_cases h : U = T
    · subst h
      simp [add_event]
    · simp [add_event, h]

theorem apply_generated (name : String) (members : List EventId) (c : EmittedCode)
    (app : AppBuilder) (h : generate name members = Except.ok c) :
    EventSet.apply c app = registerAll members app := by
  obtain ⟨-, -, h3, -, -, -⟩ := generate_ok_shape name members c h
  rw [EventSet.apply, h3]
  rfl

theorem generatedSend_eq_publish (name : String) (members : List EventId)
    (c : EmittedCode) (T : EventId) (v : Nat) (w : World)
    (h : generate name members = Except.ok c) (hT : T ∈ members) :
    generatedSend c T v w = publish T v w := by
  obtain ⟨-, h2, -, h4, -, -⟩ := generate_ok_shape name members c h
  rw [generatedSend, h4, find_sendImpl members T hT, h2]
  simp only [find_field members T hT]

theorem generate_eq_ok (name : String) (m : EventId) (ms : List EventId)
    (hnd : (m :: ms).Nodup) :
    generate name (m :: ms) = Except.ok
      { structName := name
        structFields := (m :: ms).map (fun e => { fieldName := e, channelOf := e })
        eventSetImpls := [m :: ms]
        sendImpls := (m :: ms).map (fun e => { eventType := e, targetField := e }) } := by
  have hf : (((m :: ms).map fun e =>
      ({ fieldName := e, channelOf := e } : FieldDecl)).map FieldDecl.fieldName).Nodup := by
    rw [fields_map_fieldName]
    exact hnd
  have hs : (((m :: ms).map fun e =>
      ({ eventType := e, targetField := e } : SendImpl)).map SendImpl.eventType).Nodup := by
    rw [sends_map_eventType]
    exact hnd
  rw [show generate name (m :: ms)
      = typeCheck
          { structName := name
            structFields := (m :: ms).map (fun e => { fieldName := e, channelOf := e })
            eventSetImpls := [m :: ms]
            sendImpls := (m :: ms).map (fun e => { eventType := e, targetField := e }) }
    from rfl, typeCheck, if_pos hf, if_pos hs]

theorem generate_isOk (name : String) (members : List EventId)
    (hne : members ≠ []) (hnd : members.Nodup) :
    ∃ c, generate name members = Except.ok c := by
  cases members with
  | nil => exact absurd rfl hne
  | cons m ms => exact ⟨_, generate_eq_ok name m ms hnd⟩

/-! ### Concrete inputs used by the witnesses -/

/-- The code emitted for `event_set!(Demo { A, B })`. -/
def demoCode : EmittedCode :=
  { structName := "Demo"
    structFields := [{ fieldName := "A", channelOf := "A" },
      { fieldName := "B", channelOf := "B" }]
    eventSetImpls := [["A", "B"]]
    sendImpls := [{ eventType := "A", targetField := "A" },
      { eventType := "B", targetField := "B" }] }

/-- The code emitted for `event_set!(Other { A, C })`. -/
def otherCode : EmittedCode :=
  { structName := "Other"
    structFields := [{ fieldName := "A", channelOf := "A" },
      { fieldName := "C", channelOf := "C" }]
    eventSetImpls := [["A", "C"]]
    sendImpls := [{ eventType := "A", targetField := "A" },
      { eventType := "C", targetField := "C" }] }

/-- A world with all channels empty and an empty publish trace. -/
def emptyWorld : World := { channels := fun _ => [], trace := [] }

/-- A fresh application builder. -/
def emptyApp : AppBuilder :=
  { addEventCalls := [], registered := fun _ => false, other := 0 }

/-! ### Claim theorems -/

/-- C3: for every set name, generation with an empty member list fails at
build time with the empty-set error of the first arm of `event_set!`, so no
aggregate type, `EventSet` implementation or `SendEvent` implementation is
emitted. -/
theorem empty_members_generation_fails (name : String) :
    generate name [] = Except.error "cannot make an empty event set" := rfl

/-- C4: generation with a member list containing the same identifier twice
fails at build time with a duplicate-field conflict from the emitted struct;
no aggregate type results from the build. -/
theorem duplicate_members_generation_fails (name : String) (members : List EventId)
    (hdup : ¬ members.Nodup) :
    generate name members = Except.error "duplicate field" := by
  cases members with
  | nil => exact absurd List.nodup_nil hdup
  | cons m ms =>
    rw [show generate name (m :: ms)
        = typeCheck
            { structName := name
              structFields := (m :: ms).map (fun e => { fieldName := e, channelOf := e })
              eventSetImpls := [m :: ms]
              sendImpls := (m :: ms).map (fun e => { eventType := e, targetField := e }) }
      from rfl, typeCheck, if_neg]
    rw [fields_map_fieldName]
    exact hdup

/-- Witness for C4 at the set `S { A, A }`. -/
theorem duplicate_members_generation_fails_witness :
    ¬ (["A", "A"] : List EventId).Nodup ∧
    generate "S" ["A", "A"] = Except.error "duplicate field" :=
  ⟨by decide, duplicate_members_generation_fails "S" ["A", "A"] (by decide)⟩

/-- C6: `add_event_set::<E>()` on the application builder constructs no new
state of its own: it is exactly `E::apply` applied to the builder passed
through, the same builder is what comes back, and nothing beyond `apply`'s own
effect happens to it. -/
theorem add_event_set_delegates (applyE : AppBuilder → AppBuilder) (app : AppBuilder) :
    add_event_set applyE app = applyE app := rfl

/-- C7 counterexample: the claim says the empty-set error message identifies
the offending set's name, but for the set name `MyEvents` the message is the
fixed text `cannot make an empty event set`, which does not contain the
name. -/
theorem empty_error_message_lacks_name :
    generate "MyEvents" [] = Except.error "cannot make an empty event set" ∧
    ¬ ("MyEvents".data <:+: "cannot make an empty event set".data) :=
  ⟨rfl, by decide⟩

/-- C7 (amended): the empty-list generation error message is the fixed text
`cannot make an empty event set`, independent of the set's name; it does not
identify the offending set (the build error's source location does). -/
theorem empty_error_message_fixed (a b : String) :
    generate a [] = Except.error "cannot make an empty event set" ∧
    generate a [] = generate b [] := ⟨rfl, rfl⟩

/-- C1: for every member type `T` of a generated event set, the generated
`send` with value `v` is the very same world transformation as a direct
`publish` (`Events::send`) on `T`'s channel — same downstream value and side
effects, identical (absent) failure behaviour — and exactly one publish call
is recorded in the trace. -/
theorem send_refines_publish (name : String) (members : List EventId)
    (c : EmittedCode) (T : EventId) (v : Nat) (w : World)
    (hgen : generate name members = Except.ok c) (hT : T ∈ members) :
    generatedSend c T v w = publish T v w ∧
    (generatedSend c T v w).trace = w.trace ++ [(T, v)] := by
  have h := generatedSend_eq_publish name members c T v w hgen hT
  refine ⟨h, ?_⟩
  rw [h]
  rfl

/-- Witness for C1: the set `Demo { A, B }`, sending `7` as event `A`. -/
theorem send_refines_publish_witness :
    generatedSend demoCode "A" 7 emptyWorld = publish "A" 7 emptyWorld ∧
    (generatedSend demoCode "A" 7 emptyWorld).trace = emptyWorld.trace ++ [("A", 7)] :=
  send_refines_publish "Demo" ["A", "B"] demoCode "A" 7 emptyWorld rfl (by decide)

/-- C2: `EventSet::apply` of a generated set performs exactly one
`add_event::<T>()` call per member, in declaration order and only for the
members: the builder's call trace is extended by exactly the (duplicate-free)
member list, and the rest of the builder's state is untouched. -/
theorem apply_registers_each_member_once (name : String) (members : List EventId)
    (c : EmittedCode) (app : AppBuilder)
    (hgen : generate name members = Except.ok c) :
    (EventSet.apply c app).addEventCalls = app.addEventCalls ++ members ∧
    members.Nodup ∧
    (EventSet.apply c app).other = app.other := by
  obtain ⟨-, -, -, -, -, hnd⟩ := generate_ok_shape name members c hgen
  rw [apply_generated name members c app hgen]
  exact ⟨registerAll_addEventCalls members app, hnd, registerAll_other members app⟩

/-- Witness for C2: registering `Demo { A, B }` on a fresh builder. -/
theorem apply_registers_each_member_once_witness :
    (EventSet.apply demoCode emptyApp).addEventCalls = emptyApp.addEventCalls ++ ["A", "B"] ∧
    (["A", "B"] : List EventId).Nodup ∧
    (EventSet.apply demoCode emptyApp).other = emptyApp.other :=
  apply_registers_each_member_once "Demo" ["A", "B"] demoCode emptyApp rfl

/-- C5: for every non-empty duplicate-free member list, generation succeeds,
and the emitted aggregate has exactly one field per member (in declaration
order), each field holding the handle to its own member's channel, exactly one
`EventSet` implementation, and exactly one `SendEvent` implementation per
member. -/
theorem generation_succeeds_on_valid_input (name : String) (members : List EventId)
    (hne : members ≠ []) (hnd : members.Nodup) :
    ∃ c, generate name members = Except.ok c ∧
      c.structFields.map FieldDecl.fieldName = members ∧
      (∀ f ∈ c.structFields, f.channelOf = f.fieldName) ∧
      c.eventSetImpls = [members] ∧
      c.sendImpls.map SendImpl.eventType = members := by
  cases members with
  | nil => exact absurd rfl hne
  | cons m ms =>
    refine ⟨_, generate_eq_ok name m ms hnd, fields_map_fieldName (m :: ms), ?_, rfl,
      sends_map_eventType (m :: ms)⟩
    intro f hf
    simp only [List.mem_map] at hf
    obtain ⟨e, -, rfl⟩ := hf
    rfl

/-- Witness for C5 at the set `Demo { A, B }`. -/
theorem generation_succeeds_on_valid_input_witness :
    ∃ c, generate "Demo" ["A", "B"] = Except.ok c ∧
      c.structFields.map FieldDecl.fieldName = ["A", "B"] ∧
      (∀ f ∈ c.structFields, f.channelOf = f.fieldName) ∧
      c.eventSetImpls = [["A", "B"]] ∧
      c.sendImpls.map SendImpl.eventType = ["A", "B"] :=
  generation_succeeds_on_valid_input "Demo" ["A", "B"] (by decide) (by decide)

/-- C8: per-type registration is idempotent on the registry, and after
registering two generated sets that share a member `T`, `T` is registered and
the duplicate registration contributed nothing: dropping `T` from the second
set's registrations yields the same registry state. -/
theorem shared_member_registered_once (n1 n2 : String) (m1 m2 : List EventId)
    (c1 c2 : EmittedCode) (T : EventId) (app : AppBuilder)
    (h1 : generate n1 m1 = Except.ok c1) (h2 : generate n2 m2 = Except.ok c2)
    (hT1 : T ∈ m1) (hT2 : T ∈ m2) :
    (∀ a : AppBuilder, ∀ U, (add_event T (add_event T a)).registered U
      = (add_event T a).registered U) ∧
    (EventSet.apply c2 (EventSet.apply c1 app)).registered T = true ∧
    (∀ U, (EventSet.apply c2 (EventSet.apply c1 app)).registered U
      = (registerAll (m2.erase T) (EventSet.apply c1 app)).registered U) := by
  rw [apply_generated n2 m2 c2 _ h2, apply_generated n1 m1 c1 app h1]
  refine ⟨?_, ?_, ?_⟩
  · intro a U
    by_cases h : U = T
    · subst h
      simp [add_event]
    · simp [add_event, h]
  · simp [registerAll_registered, hT2]
  · intro U
    rw [registerAll_registered m2, registerAll_registered (m2.erase T),
      registerAll_registered m1]
    by_cases h : U = T
    · subst h
      simp [registerAll_registered, hT1, hT2]
    · have hd : (decide (U ∈ m2.erase T) : Bool) = decide (U ∈ m2) := by
        rw [decide_eq_decide]
        exact List.mem_erase_of_ne h
      rw [hd]

/-- Witness for C8: the sets `Demo { A, B }` and `Other { A, C }`, sharing
member `A`, registered on a fresh builder. -/
theorem shared_member_registered_once_witness :
    (∀ a : AppBuilder, ∀ U, (add_event "A" (add_event "A" a)).registered U
      = (add_event "A" a).registered U) ∧
    (EventSet.apply otherCode (EventSet.apply demoCode emptyApp)).registered "A" = true ∧
    (∀ U, (EventSet.apply otherCode (EventSet.apply demoCode emptyApp)).registered U
      = (registerAll ((["A", "C"] : List EventId).erase "A")
          (EventSet.apply demoCode emptyApp)).registered U) :=
  shared_member_registered_once "Demo" "Other" ["A", "B"] ["A", "C"] demoCode otherCode
    "A" emptyApp rfl rfl (by decide) (by decide)

/-- C9: permuting a duplicate-free member list affects only emitted order:
generation still succeeds, registering the permuted set leaves the registry in
the same state (the same event types registered), and each member's `send` is
the same world transformation as before. -/
theorem permuted_members_same_semantics (name name' : String)
    (members members' : List EventId)
    (hperm : members'.Perm members) (hne : members ≠ []) (hnd : members.Nodup) :
    ∃ c c', generate name members = Except.ok c ∧
      generate name' members' = Except.ok c' ∧
      (∀ app U, (EventSet.apply c' app).registered U = (EventSet.apply c app).registered U) ∧
      (∀ T ∈ members, ∀ v w, generatedSend c' T v w = generatedSend c T v w) := by
  have hne' : members' ≠ [] := by
    intro h
    subst h
    exact hne (List.Perm.eq_nil hperm.symm)
  have hnd' : members'.Nodup := hperm.nodup_iff.mpr hnd
  obtain ⟨c, hc⟩ := generate_isOk name members hne hnd
  obtain ⟨c', hc'⟩ := generate_isOk name' members' hne' hnd'
  refine ⟨c, c', hc, hc', ?_, ?_⟩
  · intro app U
    rw [apply_generated name' members' c' app hc', apply_generated name members c app hc,
      registerAll_registered, registerAll_registered]
    have hd : (decide (U ∈ members') : Bool) = decide (U ∈ members) := by
      rw [decide_eq_decide]
      exact hperm.mem_iff
    rw [hd]
  · intro T hT v w
    have hT' : T ∈ members' := hperm.mem_iff.mpr hT
    rw [generatedSend_eq_publish name' members' c' T v w hc' hT',
      generatedSend_eq_publish name members c T v w hc hT]

/-- Witness for C9: `["B", "A"]` is a permutation of `["A", "B"]`. -/
theorem permuted_members_same_semantics_witness :
    (["B", "A"] : List EventId).Perm ["A", "B"] ∧
    (∃ c c', generate "Demo" ["A", "B"] = Except.ok c ∧
      generate "Omed" ["B", "A"] = Except.ok c' ∧
      (∀ app U, (EventSet.apply c' app).registered U = (EventSet.apply c app).registered U) ∧
      (∀ T ∈ (["A", "B"] : List EventId), ∀ v w,
        generatedSend c' T v w = generatedSend c T v w)) :=
  ⟨by decide,
    permuted_members_same_semantics "Demo" "Omed" ["A", "B"] ["B", "A"]
      (by decide) (by decide) (by decide)⟩

/-- C10: sending a value of member type `T` mutates only `T`'s channel: the
buffer of every other event type `U ≠ T` — in particular every other member's
channel — is unchanged by the call. -/
theorem send_preserves_other_channels (name : String) (members : List EventId)
    (c : EmittedCode) (T U : EventId) (v : Nat) (w : World)
    (hgen : generate name members = Except.ok c) (hT : T ∈ members) (hUT : U ≠ T) :
    (generatedSend c T v w).channels U = w.channels U := by
  rw [generatedSend_eq_publish name members c T v w hgen hT, publish]
  simp [hUT]

/-- Witness for C10: in `Demo { A, B }`, sending `7` as event `A` leaves
`B`'s channel unchanged. -/
theorem send_preserves_other_channels_witness :
    (generatedSend demoCode "A" 7 emptyWorld).channels "B" = emptyWorld.channels "B" :=
  send_preserves_other_channels "Demo" ["A", "B"] demoCode "A" "B" 7 emptyWorld
    rfl (by decide) (by decide)

end BevyEventSet
